import Mathlib

/-!
Verification development for the gitfs virtual filesystem core.

The definitions below are shallow embeddings of the Go source:
path resolution (`pkg/path.go`), git mode decoding (`pkg/gitism`,
`pkg/git.go`), the ls-tree line parser (`pkg/git.go`), the read-only
billy filesystem view (`pkg/reffs.go`) and the FUSE inode layer
(`billyFuse`).  Machine integers are modelled as `Nat`, Go `error`
results as `Except`/`Option`, and Go interface backends as structures
of functions.
-/

namespace GitFs

/-- Error values used across the embedding.  Distinct Go sentinel errors
(`ErrEscapesChroot`, `fs.ErrInvalid`, `fs.ErrNotExist`, `billy.ErrReadOnly`,
`billy.ErrNotSupported`) become distinct constructors; errors produced by
`fmt.Errorf` wrapping become `wrapped`, backend failures become `backend`. -/
inductive FsError where
  | escapesChroot
  | invalid
  | notExist
  | readOnly
  | notSupported
  | backend (msg : String)
  | wrapped (msg : String)
  deriving DecidableEq, Repr

/-! ## Path resolver (`GitPath` with `Path []string`, `pkg/path.go`) -/

/-- The component loop of `GitPath.Resolve`: the accumulator starts as the
base path's segments, then each request component is processed in order
(`..` pops, `.` is skipped, anything else is pushed).  The scratch-array
with write index in the source is equivalent to this list accumulator. -/
def resolveSegs : List String → List String → Except FsError (List String)
  | acc, [] => .ok acc
  | acc, part :: rest =>
    if part = ".." then
      if acc.isEmpty then .error .escapesChroot
      else resolveSegs acc.dropLast rest
    else if part = "." then resolveSegs acc rest
    else resolveSegs (acc ++ [part]) rest

/-- Embedding of `strings.Split` with a one-character separator: splitting
the empty string yields one empty component, and every separator occurrence
starts a new component. -/
def splitOnChar : List Char → Char → List (List Char)
  | [], _ => [[]]
  | c :: rest, sep =>
    if c = sep then [] :: splitOnChar rest sep
    else
      match splitOnChar rest sep with
      | [] => [[c]]
      | g :: gs => (c :: g) :: gs

/-- `strings.Split(request, SeparatorString)` as used by `Resolve`. -/
def goSplitSlash (s : String) : List String :=
  (splitOnChar s.toList '/').map String.mk

/-- Embedding of `GitPath.Resolve`: split the request on the separator and
run the component loop starting from the base path's segments. -/
def gitPathResolve (p : List String) (request : String) : Except FsError (List String) :=
  resolveSegs p (goSplitSlash request)

/-- Embedding of `GitPath.Parent`: the root is its own parent, otherwise the
last segment is dropped. -/
def gitPathParent (p : List String) : List String :=
  if p.isEmpty then [] else p.dropLast

/-- Embedding of `GitPath.IsRoot`. -/
def gitPathIsRoot (p : List String) : Bool :=
  p.isEmpty

/-- Canonical string rendering of a path (`FilePath.String` /
`RootRelativePath`): `.` for the root, otherwise segments joined by the
separator. -/
def pathString (p : List String) : String :=
  if p.isEmpty then "." else String.intercalate "/" p

/-! ## Mode translator (`gitism.NewFileMode`, also `newGitFileMode` in
`pkg/git.go`, which is textually the same decoder) -/

inductive FileType where
  | regularFile
  | directory
  | symlink
  deriving DecidableEq, Repr

structure FileMode where
  type : FileType
  perms : Nat
  deriving DecidableEq, Repr

/-- Embedding of `gitism.NewFileMode`.  The raw mode is a `uint16`; the low
9 bits are the permission bits, `0o120000` flags a symlink, `0o160000` a
gitlink, `0o040000` a directory. -/
def NewFileMode (gitMode : Nat) : FileMode :=
  let perms := gitMode &&& 0o777
  if gitMode &&& 0o120000 = 0o120000 ∨ gitMode &&& 0o160000 = 0o160000 then
    { type := FileType.symlink, perms := perms }
  else if gitMode &&& 0o040000 = 0o040000 then
    { type := FileType.directory, perms := 0o444 }
  else
    { type := FileType.regularFile, perms := perms }

/-! ## ls-tree line parser (`newListTreeEntry` in `pkg/git.go`) -/

/-- Embedding of `strings.IndexByte`: index of the first occurrence, or -1. -/
def indexByte (s : List Char) (c : Char) : Int :=
  match s.findIdx? (fun x => x = c) with
  | some i => (i : Int)
  | none => -1

/-- Embedding of `strings.LastIndexByte`: index of the last occurrence, or -1. -/
def lastIndexByte (s : List Char) (c : Char) : Int :=
  match s.reverse.findIdx? (fun x => x = c) with
  | some i => ((s.length - 1 - i : Nat) : Int)
  | none => -1

/-- Embedding of `strings.TrimSpace`. -/
def trimSpace (s : List Char) : List Char :=
  ((s.dropWhile Char.isWhitespace).reverse.dropWhile Char.isWhitespace).reverse

def octDigit (c : Char) : Option Nat :=
  if '0' ≤ c ∧ c ≤ '7' then some (c.toNat - '0'.toNat) else none

def parseOctCore : List Char → Nat → Option Nat
  | [], acc => some acc
  | c :: rest, acc =>
    match octDigit c with
    | none => none
    | some d => parseOctCore rest (acc * 8 + d)

/-- Embedding of `strconv.ParseUint(s, 8, 16)`: `none` on an empty string, a
non-octal-digit character, or a value that does not fit in 16 bits. -/
def parseOctalUint16 (s : List Char) : Option Nat :=
  if s.isEmpty then none
  else
    match parseOctCore s 0 with
    | none => none
    | some v => if v < 65536 then some v else none

def decDigit (c : Char) : Option Nat :=
  if '0' ≤ c ∧ c ≤ '9' then some (c.toNat - '0'.toNat) else none

def parseDecCore : List Char → Nat → Option Nat
  | [], acc => some acc
  | c :: rest, acc =>
    match decDigit c with
    | none => none
    | some d => parseDecCore rest (acc * 10 + d)

/-- Embedding of `strconv.ParseUint(s, 10, 32)`. -/
def parseDecimalUint32 (s : List Char) : Option Nat :=
  if s.isEmpty then none
  else
    match parseDecCore s 0 with
    | none => none
    | some v => if v < 4294967296 then some v else none

/-- A parsed ls-tree line (`ListTreeEntry` in `pkg/git.go`, with the mode
field decoded by the mode translator as `reffs.go` consumes it). -/
structure ListTreeEntry where
  mode : FileMode
  object : String
  hash : String
  size : String
  path : String
  deriving DecidableEq, Repr

/-- Outcome of running the Go parser on one line: a runtime panic (slice
bounds out of range), a returned error, or a parsed entry. -/
inductive LineParse where
  | panicked
  | failed (msg : String)
  | parsed (entry : ListTreeEntry)
  deriving DecidableEq, Repr

/-- Embedding of `newListTreeEntry` (`pkg/git.go`).  Field extraction follows
the source statement by statement.  For the object-type field the source
takes the slice `line[:objectTypeTextEnd]` before comparing
`objectTypeTextEnd` with -1; a negative slice bound panics at runtime, so
that case is `panicked` here and the source's "type not found" return is
unreachable. -/
def newListTreeEntry (line0 : String) : LineParse :=
  let line := line0.toList
  let modeTextEnd := indexByte line ' '
  if modeTextEnd = -1 then .failed "oct not found"
  else
    let modeText := line.take modeTextEnd.toNat
    let line := line.drop (modeTextEnd.toNat + 1)
    let objectTypeTextEnd := indexByte line ' '
    if objectTypeTextEnd = -1 then .panicked
    else
      let objectTypeText := line.take objectTypeTextEnd.toNat
      let line := line.drop (objectTypeTextEnd.toNat + 1)
      let hashTextEnd := indexByte line ' '
      if hashTextEnd = -1 then .failed "hash not found"
      else
        let hashText := line.take hashTextEnd.toNat
        let line := line.drop (hashText.length + 1)
        let sizeTextEnd := lastIndexByte line '\t'
        if sizeTextEnd = -1 then .failed "size not found"
        else
          let sizeText := line.take sizeTextEnd.toNat
          let pathText := line.drop (sizeText.length + 1)
          match parseOctalUint16 modeText with
          | none => .failed "mode parse"
          | some modeNum =>
            .parsed
              { mode := NewFileMode modeNum
                object := String.mk (trimSpace objectTypeText)
                hash := String.mk (trimSpace hashText)
                size := String.mk (trimSpace sizeText)
                path := String.mk (trimSpace pathText) }

/-! ## Read-only filesystem view (`pkg/reffs.go`) -/

inductive GitObjectType where
  | unknown
  | blob
  | tree
  deriving DecidableEq, Repr

/-- Embedding of `gitFileInfo`.  `mode` is the numeric value of the Go
`fs.FileMode` (permission bits plus the `ModeDir`/`ModeSymlink` flag bits). -/
structure GitFileInfo where
  mode : Nat
  type : GitObjectType
  hash : String
  path : String
  size : Nat
  deriving DecidableEq, Repr

/-- The Go zero value of `gitFileInfo`. -/
def zeroGitFileInfo : GitFileInfo :=
  { mode := 0, type := GitObjectType.unknown, hash := "", path := "", size := 0 }

/-- `os.ModeDir`, bit 31 of `fs.FileMode`. -/
def fsModeDir : Nat := 2 ^ 31

/-- `os.ModeSymlink`, bit 26 of `fs.FileMode`. -/
def fsModeSymlink : Nat := 2 ^ 26

/-- Embedding of `GitReference` (three optional strings; the Go zero value
has all three nil). -/
structure GitReference where
  commit : Option String
  branch : Option String
  tag : Option String
  deriving DecidableEq, Repr

def zeroGitReference : GitReference :=
  { commit := none, branch := none, tag := none }

/-- The `Git` backend interface as consumed by `ReferenceFileSystem`.
`listTree` is keyed by the relative-path string that `lsTree` passes to the
backend and yields the entries delivered before the call either finishes
(`none`) or fails mid-stream or up-front (`some` error); `readBlob` returns
a blob's content by hash. -/
structure Git where
  listTree : String → List ListTreeEntry × Option FsError
  readBlob : String → Except FsError String

/-- The per-entry conversion done inside `ReferenceFileSystem.lsTree`'s
handler closure: map the object-kind string, assemble the `fs.FileMode`
bits from the decoded git mode, and parse the size field unless it is the
`-` placeholder. -/
def entryToFileInfo (entry : ListTreeEntry) : Except FsError GitFileInfo :=
  let t :=
    if entry.object = "blob" then GitObjectType.blob
    else if entry.object = "tree" then GitObjectType.tree
    else GitObjectType.unknown
  let m :=
    entry.mode.perms |||
      (if entry.mode.type = FileType.symlink then fsModeSymlink
       else if entry.mode.type = FileType.directory then fsModeDir
       else 0)
  if entry.size = "-" then
    .ok { mode := m, type := t, hash := entry.hash, path := entry.path, size := 0 }
  else
    match parseDecimalUint32 entry.size.toList with
    | none => .error (.wrapped "size parse")
    | some n =>
      .ok { mode := m, type := t, hash := entry.hash, path := entry.path, size := n }

/-- The handler loop of `cliGit.ListTree` as driven by
`ReferenceFileSystem.lsTree`: each delivered entry is converted and fed to
the stateful handler; a conversion or handler error aborts the loop. -/
def runEntries {σ : Type} (handler : σ → GitFileInfo → Except FsError σ) :
    σ → List ListTreeEntry → Except FsError σ
  | st, [] => .ok st
  | st, e :: rest =>
    match entryToFileInfo e with
    | .error err => .error err
    | .ok fi =>
      match handler st fi with
      | .error err => .error err
      | .ok st2 => runEntries handler st2 rest

/-- Embedding of `ReferenceFileSystem.lsTree`: build the relative path (with
a trailing separator when listing children), run the backend call, convert
and hand each entry to the handler.  A handler-side error is wrapped by
`cliGit.ListTree` before being returned; a backend-side error is returned
after the delivered entries were processed. -/
def lsTree (g : Git) (path : List String) (children : Bool) {σ : Type}
    (init : σ) (handler : σ → GitFileInfo → Except FsError σ) : Except FsError σ :=
  let relativePath := pathString path ++ (if children then "/" else "")
  let r := g.listTree relativePath
  match runEntries handler init r.1 with
  | .error _ => .error (.wrapped "handler rejected file info")
  | .ok st =>
    match r.2 with
    | some e => .error e
    | none => .ok st

/-- Embedding of `ReferenceFileSystem.lsFile`: single-entry lookup through
`lsTree` with a seen-flag handler (a second entry is `fs.ErrInvalid`).
When the `lsTree` call itself returns an error, the source returns the
zero-value `gitFileInfo` together with a nil error; when no entry was seen
it returns `fs.ErrNotExist`. -/
def lsFile (g : Git) (path : List String) : Except FsError GitFileInfo :=
  match lsTree g path false (none : Option GitFileInfo)
      (fun st fi =>
        match st with
        | some _ => .error .invalid
        | none => .ok (some fi)) with
  | .error _ => .ok zeroGitFileInfo
  | .ok none => .error .notExist
  | .ok (some fi) => .ok fi

/-- Embedding of `ReferenceFileSystem` (a `Git` handle, a selected
reference, and the view's root path). -/
structure ReferenceFileSystem where
  git : Git
  reference : GitReference
  root : List String

/-- Embedding of `gitFile` (an open read-only handle over buffered blob
content). -/
structure GitFile where
  name : String
  info : GitFileInfo
  contents : String
  deriving DecidableEq, Repr

/-- Embedding of `ReferenceFileSystem.openFile`: fetch the blob and wrap it
in a handle. -/
def openFile (s : ReferenceFileSystem) (filename : String) (fi : GitFileInfo) :
    Except FsError GitFile :=
  match s.git.readBlob fi.hash with
  | .error e => .error e
  | .ok contents => .ok { name := filename, info := fi, contents := contents }

/-- Embedding of `ReferenceFileSystem.Stat`: resolve the request; the root
gets a synthetic directory answer, everything else goes through `lsFile`. -/
def Stat (s : ReferenceFileSystem) (filename : String) : Except FsError GitFileInfo :=
  match gitPathResolve s.root filename with
  | .error _ => .error (.wrapped "failed to parse path")
  | .ok path =>
    if path.isEmpty then
      .ok { mode := 0o555 ||| fsModeDir, type := GitObjectType.tree, hash := "",
            path := filename, size := 0 }
    else lsFile s.git path

/-- Embedding of `ReferenceFileSystem.Open`. -/
def Open (s : ReferenceFileSystem) (filename : String) : Except FsError GitFile :=
  match gitPathResolve s.root filename with
  | .error _ => .error .invalid
  | .ok path =>
    match lsFile s.git path with
    | .error e => .error e
    | .ok fi => openFile s filename fi

/-- `os.O_RDONLY`. -/
def O_RDONLY : Int := 0

/-- Embedding of `ReferenceFileSystem.OpenFile`: any flag other than
`O_RDONLY` is rejected read-only; after the lookup, a permission argument
different from the entry's stored mode is also rejected read-only. -/
def OpenFile (s : ReferenceFileSystem) (filename : String) (flag : Int) (perm : Nat) :
    Except FsError GitFile :=
  match gitPathResolve s.root filename with
  | .error _ => .error .invalid
  | .ok path =>
    if flag ≠ O_RDONLY then .error .readOnly
    else
      match lsFile s.git path with
      | .error e => .error e
      | .ok fi =>
        if perm ≠ fi.mode then .error .readOnly
        else openFile s filename fi

/-- Embedding of `ReferenceFileSystem.Readlink`: resolve the link path, look
up its entry, fetch its blob, then resolve the blob content against the
link's parent path and render the result. -/
def Readlink (s : ReferenceFileSystem) (link : String) : Except FsError String :=
  match gitPathResolve s.root link with
  | .error _ => .error (.wrapped "failed to parse path")
  | .ok gitPath =>
    match lsFile s.git gitPath with
    | .error e => .error e
    | .ok fi =>
      match s.git.readBlob fi.hash with
      | .error e => .error e
      | .ok contents =>
        match gitPathResolve (gitPathParent gitPath) contents with
        | .error e => .error e
        | .ok real => .ok (pathString real)

/-- Embedding of `ReferenceFileSystem.Chroot`: resolve the request and build
a new view from the resolved root and the shared `git` handle.  The source
constructs the new struct from those two fields only, so the new view's
`reference` is the Go zero value. -/
def Chroot (s : ReferenceFileSystem) (path : String) :
    Except FsError ReferenceFileSystem :=
  match gitPathResolve s.root path with
  | .error _ => .error (.wrapped "failed to parse path")
  | .ok gitPath =>
    .ok { git := s.git, reference := zeroGitReference, root := gitPath }

/-! Mutating operations of the view (`pkg/reffs.go`): each one ignores its
arguments and returns `billy.ErrReadOnly` without touching the receiver. -/

def Create (_s : ReferenceFileSystem) (_filename : String) : Except FsError GitFile :=
  .error .readOnly

def Rename (_s : ReferenceFileSystem) (_oldpath _newpath : String) : Except FsError Unit :=
  .error .readOnly

def Remove (_s : ReferenceFileSystem) (_filename : String) : Except FsError Unit :=
  .error .readOnly

def TempFile (_s : ReferenceFileSystem) (_dir _prfx : String) : Except FsError GitFile :=
  .error .readOnly

def MkdirAll (_s : ReferenceFileSystem) (_filename : String) (_perm : Nat) :
    Except FsError Unit :=
  .error .readOnly

def Symlink (_s : ReferenceFileSystem) (_target _link : String) : Except FsError Unit :=
  .error .readOnly

def Chmod (_s : ReferenceFileSystem) (_name : String) (_mode : Nat) : Except FsError Unit :=
  .error .readOnly

def Lchown (_s : ReferenceFileSystem) (_name : String) (_uid _gid : Int) :
    Except FsError Unit :=
  .error .readOnly

def Chown (_s : ReferenceFileSystem) (_name : String) (_uid _gid : Int) :
    Except FsError Unit :=
  .error .readOnly

def Chtimes (_s : ReferenceFileSystem) (_name : String) (_atime _mtime : Int) :
    Except FsError Unit :=
  .error .readOnly

/-! Handle-level operations of `gitFile` (`pkg/reffs.go`): `Write`,
`Truncate`, `Lock` and `Unlock` ignore their arguments and return
`billy.ErrNotSupported`. -/

def GitFile.write (_f : GitFile) (_p : List Nat) : Nat × Option FsError :=
  (0, some FsError.notSupported)

def GitFile.truncate (_f : GitFile) (_size : Int) : Option FsError :=
  some FsError.notSupported

def GitFile.lock (_f : GitFile) : Option FsError :=
  some FsError.notSupported

def GitFile.unlock (_f : GitFile) : Option FsError :=
  some FsError.notSupported

/-! ## FUSE inode layer (`billyFuse`, `billyInode`) -/

inductive FuseError where
  | EINVAL
  | ENOENT
  | ENOTDIR
  | ioError
  deriving DecidableEq, Repr

/-- Embedding of `billyInode`: the cached file info is reduced to the fields
`ReadDir` reads from it (the numeric `fs.FileMode` and the base name). -/
structure BillyInode where
  id : Nat
  parentId : Nat
  mode : Nat
  name : String
  children : List Nat
  deriving DecidableEq, Repr

/-- The inode table of `billyFuse`, as a partial map from inode ids. -/
def InodeTable : Type := Nat → Option BillyInode

/-- Embedding of `billyFuse.getInode`: id 0 is invalid, unknown ids are
`ENOENT`. -/
def getInode (tbl : InodeTable) (id : Nat) : Except FuseError BillyInode :=
  if id = 0 then .error .EINVAL
  else
    match tbl id with
    | none => .error .ENOENT
    | some ino => .ok ino

inductive DirentType where
  | unknown
  | directory
  | link
  | file
  deriving DecidableEq, Repr

/-- Embedding of `fuseutil.Dirent` as filled in by `billyFuse.ReadDir`. -/
structure Dirent where
  offset : Nat
  inode : Nat
  name : String
  dtype : DirentType
  deriving DecidableEq, Repr

/-- The entry-type computation in `billyFuse.ReadDir`: the `ModeDir` bit
wins, then the `ModeSymlink` bit, else a plain file. -/
def direntTypeOf (mode : Nat) : DirentType :=
  if mode &&& fsModeDir ≠ 0 then DirentType.directory
  else if mode &&& fsModeSymlink ≠ 0 then DirentType.link
  else DirentType.file

/-- The entry-building loop of `billyFuse.ReadDir`: walk the child id list,
look each child up (failure is `ioError`), and record a dirent whose offset
field is the running 1-based counter. -/
def buildDirents (tbl : InodeTable) : List Nat → Nat → Except FuseError (List Dirent)
  | [], _ => .ok []
  | c :: rest, offset =>
    match getInode tbl c with
    | .error _ => .error .ioError
    | .ok child =>
      let off := offset + 1
      match buildDirents tbl rest off with
      | .error e => .error e
      | .ok ds =>
        .ok ({ offset := off, inode := c, name := child.name,
               dtype := direntTypeOf child.mode } :: ds)

/-- The destination-buffer loop of `billyFuse.ReadDir`: `sz e` bytes are
consumed per written entry (`fuseutil.WriteDirent` returns 0 when the entry
does not fit, which breaks the loop).  Returns the entries written. -/
def writeDirents (sz : Dirent → Nat) : List Dirent → Nat → List Dirent
  | [], _ => []
  | e :: rest, space =>
    let n := if sz e ≤ space then sz e else 0
    if n = 0 then []
    else e :: writeDirents sz rest (space - n)

/-- Embedding of `billyFuse.ReadDir`: look up the inode, require a
directory, build the full dirent list, reject an offset beyond its length
with `ioError`, then write entries from that offset until the buffer (of
`space` remaining bytes) is full. -/
def fuseReadDir (tbl : InodeTable) (sz : Dirent → Nat) (inodeId : Nat)
    (offset : Nat) (space : Nat) : Except FuseError (List Dirent) :=
  match getInode tbl inodeId with
  | .error _ => .error .ENOENT
  | .ok ino =>
    if ino.mode &&& fsModeDir = 0 then .error .ENOTDIR
    else
      match buildDirents tbl ino.children 0 with
      | .error e => .error e
      | .ok entries =>
        if entries.length < offset then .error .ioError
        else .ok (writeDirents sz (entries.drop offset) space)

/-- A sequence of resumable `ReadDir` calls: each call passes as its offset
the offset field of the last entry the previous call returned, which is the
number of entries consumed so far. -/
def fusePaginate (tbl : InodeTable) (sz : Dirent → Nat) (inodeId : Nat) :
    List Nat → Nat → Except FuseError (List Dirent)
  | [], _ => .ok []
  | b :: bs, o =>
    match fuseReadDir tbl sz inodeId o b with
    | .error e => .error e
    | .ok r =>
      match fusePaginate tbl sz inodeId bs (o + r.length) with
      | .error e => .error e
      | .ok rest => .ok (r ++ rest)

/-- Total byte size of a dirent list under a size function. -/
def direntsSize (sz : Dirent → Nat) : List Dirent → Nat
  | [] => 0
  | e :: rest => sz e + direntsSize sz rest

/-! ## Concrete fixtures used by witnesses and counterexamples -/

/-- A backend whose listing call fails up front (external process failure). -/
def failingGit : Git :=
  { listTree := fun _ => ([], some (FsError.backend "git: ls-tree failed"))
    readBlob := fun _ => Except.error (FsError.backend "git: cat-file failed") }

/-- A view over the failing backend, rooted at the repository root. -/
def failingFs : ReferenceFileSystem :=
  { git := failingGit, reference := zeroGitReference, root := [] }

/-- A symlink tree entry whose blob target escapes its directory. -/
def symlinkEntry : ListTreeEntry :=
  { mode := NewFileMode 0o120000, object := "blob", hash := "h1", size := "8",
    path := "test/escaping.txt" }

/-- A backend exposing exactly the escaping symlink nested under `test`. -/
def chrootGit : Git :=
  { listTree := fun rel =>
      if rel = "test/escaping.txt" then ([symlinkEntry], none) else ([], none)
    readBlob := fun h =>
      if h = "h1" then Except.ok "../real.txt"
      else Except.error (FsError.backend "no blob") }

/-- The view obtained by chrooting into `test` over that backend. -/
def chrootFs : ReferenceFileSystem :=
  { git := chrootGit, reference := zeroGitReference, root := ["test"] }

/-- The file info that `lsFile` produces for the escaping symlink. -/
def chrootInfo : GitFileInfo :=
  { mode := fsModeSymlink, type := GitObjectType.blob, hash := "h1",
    path := "test/escaping.txt", size := 8 }

/-- A regular-file tree entry at the repository root. -/
def regularEntry : ListTreeEntry :=
  { mode := NewFileMode 0o100644, object := "blob", hash := "h2", size := "12",
    path := "real.txt" }

/-- A backend exposing exactly that regular file. -/
def regularGit : Git :=
  { listTree := fun rel =>
      if rel = "real.txt" then ([regularEntry], none) else ([], none)
    readBlob := fun h =>
      if h = "h2" then Except.ok "Hello World\n"
      else Except.error (FsError.backend "no blob") }

/-- A root view over that backend. -/
def regularFs : ReferenceFileSystem :=
  { git := regularGit, reference := zeroGitReference, root := [] }

/-- The file info that `lsFile` produces for the regular file. -/
def regularInfo : GitFileInfo :=
  { mode := 0o644, type := GitObjectType.blob, hash := "h2", path := "real.txt",
    size := 12 }

/-- A view whose selected reference is the branch `master`. -/
def masterFs : ReferenceFileSystem :=
  { git := failingGit,
    reference := { commit := none, branch := some "master", tag := none },
    root := [] }

/-- A concrete open file handle. -/
def demoFile : GitFile :=
  { name := "real.txt", info := zeroGitFileInfo, contents := "Hello World" }

/-- The root inode of a small inode table: a directory with two regular
files and a symlink as children. -/
def demoInode1 : BillyInode :=
  { id := 1, parentId := 0, mode := fsModeDir, name := ".", children := [2, 3, 4] }

/-- A small concrete inode table. -/
def demoTable : InodeTable := fun n =>
  if n = 1 then some demoInode1
  else if n = 2 then
    some { id := 2, parentId := 1, mode := 0o644, name := "a.txt", children := [] }
  else if n = 3 then
    some { id := 3, parentId := 1, mode := 0o644, name := "b.txt", children := [] }
  else if n = 4 then
    some { id := 4, parentId := 1, mode := fsModeSymlink, name := "s", children := [] }
  else none

/-- The dirent list of the root directory of `demoTable`. -/
def demoEntries : List Dirent :=
  [{ offset := 1, inode := 2, name := "a.txt", dtype := DirentType.file },
   { offset := 2, inode := 3, name := "b.txt", dtype := DirentType.file },
   { offset := 3, inode := 4, name := "s", dtype := DirentType.link }]

/-! ## Theorems -/

/-- C1: `Resolve` processes the combined base-plus-request segment list
incrementally left to right: `.` is a no-op, `..` pops the last accumulated
segment and fails with the escape error exactly when the accumulator is
already empty, and any other component is appended; consequently a request
of k `..` segments against a path succeeds with a prefix of its segments
when k does not exceed its depth and yields the escape error when it does;
and `Parent` of the root returns the root. -/
theorem resolve_segmentwise_and_parent_of_root :
    (∀ acc rest, resolveSegs acc ("." :: rest) = resolveSegs acc rest)
    ∧ (∀ acc rest, acc ≠ [] →
        resolveSegs acc (".." :: rest) = resolveSegs acc.dropLast rest)
    ∧ (∀ rest, resolveSegs [] (".." :: rest) = Except.error FsError.escapesChroot)
    ∧ (∀ acc part rest, part ≠ "." → part ≠ ".." →
        resolveSegs acc (part :: rest) = resolveSegs (acc ++ [part]) rest)
    ∧ (∀ p req, gitPathResolve p req = resolveSegs p (goSplitSlash req))
    ∧ (∀ (p : List String) (k : Nat), k ≤ p.length →
        resolveSegs p (List.replicate k "..") = Except.ok (p.take (p.length - k)))
    ∧ (∀ (p : List String) (k : Nat), p.length < k →
        resolveSegs p (List.replicate k "..") = Except.error FsError.escapesChroot)
    ∧ gitPathParent [] = [] := by
  refine ⟨?_, ?_, ?_, ?_, fun _ _ => rfl, ?_, ?_, rfl⟩
  · intro acc rest
    simp [resolveSegs]
  · intro acc rest h
    cases acc with
    | nil => exact absurd rfl h
    | cons a as => simp [resolveSegs]
  · intro rest
    simp [resolveSegs]
  · intro acc part rest h1 h2
    simp [resolveSegs, h1, h2]
  · intro p k
    induction k generalizing p with
    | zero =>
      intro _
      simp [resolveSegs]
    | succ k ih =>
      intro hk
      cases p with
      | nil => simp at hk
      | cons a as =>
        rw [List.replicate_succ]
        have step : resolveSegs (a :: as) (".." :: List.replicate k "..")
            = resolveSegs ((a :: as).dropLast) (List.replicate k "..") := by
          simp [resolveSegs]
        rw [step, ih ((a :: as).dropLast)
          (by rw [List.length_dropLast]; simp at hk ⊢; omega)]
        have harith : (a :: as).dropLast.length - k = (a :: as).length - (k + 1) := by
          rw [List.length_dropLast]
          omega
        rw [harith, List.dropLast_eq_take, List.take_take]
        have hmin : min ((a :: as).length - (k + 1)) ((a :: as).length - 1)
            = (a :: as).length - (k + 1) := by omega
        rw [hmin]
  · intro p k
    induction k generalizing p with
    | zero => intro h; exact absurd h (Nat.not_lt_zero _)
    | succ k ih =>
      intro hk
      cases p with
      | nil =>
        rw [List.replicate_succ]
        simp [resolveSegs]
      | cons a as =>
        rw [List.replicate_succ]
        have step : resolveSegs (a :: as) (".." :: List.replicate k "..")
            = resolveSegs ((a :: as).dropLast) (List.replicate k "..") := by
          simp [resolveSegs]
        rw [step, ih ((a :: as).dropLast)
          (by rw [List.length_dropLast]; simp at hk ⊢; omega)]

/-- Witness for C1 at concrete inputs. -/
theorem resolve_segmentwise_and_parent_of_root_witness :
    resolveSegs ["foo", "bar.cc"] (List.replicate 1 "..") = Except.ok ["foo"]
    ∧ resolveSegs ["foo"] (List.replicate 2 "..") = Except.error FsError.escapesChroot
    ∧ resolveSegs ["a"] (".." :: []) = resolveSegs (["a"].dropLast) []
    ∧ resolveSegs [] ("foo" :: []) = resolveSegs ([] ++ ["foo"]) [] := by
  refine ⟨?_, ?_, ?_, ?_⟩
  · exact resolve_segmentwise_and_parent_of_root.2.2.2.2.2.1 ["foo", "bar.cc"] 1
      (by decide)
  · exact resolve_segmentwise_and_parent_of_root.2.2.2.2.2.2.1 ["foo"] 2 (by decide)
  · exact resolve_segmentwise_and_parent_of_root.2.1 ["a"] [] (by decide)
  · exact resolve_segmentwise_and_parent_of_root.2.2.2.1 [] "foo" []
      (by decide) (by decide)

/-- C2: when the underlying tree-listing call fails, `lsFile` discards the
error and returns the zero-value file info with a nil error, and `Stat`
passes that zero-value success on to its caller. -/
theorem stat_swallows_listing_error :
    lsFile failingGit ["real.txt"] = Except.ok zeroGitFileInfo
    ∧ Stat failingFs "real.txt" = Except.ok zeroGitFileInfo := by
  exact ⟨rfl, rfl⟩

/-- C4 counterexample: decoding the directory bit pattern forces the
permission bits to `0o444` (read-only, no traverse bit), not the claimed
owner/group/other read+execute value `0o555`. -/
theorem filemode_directory_perms_counterexample :
    (NewFileMode 0o040000).perms = 0o444
    ∧ (NewFileMode 0o040000).perms ≠ 0o555 := by
  decide

/-- C4 amended: decode checks the symlink/link patterns first (symlink wins
over every other interpretation, including modes that also carry the
directory bit); otherwise the directory pattern forces the fixed read-only
value `0o444` regardless of the stored low 9 bits; otherwise the result is
a regular file with the stored low-9 permission bits verbatim. -/
theorem filemode_decode_order (m : Nat) :
    ((m &&& 0o120000 = 0o120000 ∨ m &&& 0o160000 = 0o160000) →
      (NewFileMode m).type = FileType.symlink
        ∧ (NewFileMode m).perms = (m &&& 0o777))
    ∧ (¬(m &&& 0o120000 = 0o120000 ∨ m &&& 0o160000 = 0o160000) →
        m &&& 0o040000 = 0o040000 →
        NewFileMode m = { type := FileType.directory, perms := 0o444 })
    ∧ (¬(m &&& 0o120000 = 0o120000 ∨ m &&& 0o160000 = 0o160000) →
        ¬(m &&& 0o040000 = 0o040000) →
        NewFileMode m = { type := FileType.regularFile, perms := m &&& 0o777 }) := by
  refine ⟨?_, ?_, ?_⟩
  · intro h
    constructor <;> simp only [NewFileMode, if_pos h]
  · intro h1 h2
    simp only [NewFileMode, if_neg h1, if_pos h2]
  · intro h1 h2
    simp only [NewFileMode, if_neg h1, if_neg h2]

/-- Witness for C4 at concrete modes: a gitlink mode (which also carries the
directory bit) decodes as symlink, a directory mode with stored low bits is
forced to `0o444`, and a regular-file mode keeps its stored bits. -/
theorem filemode_decode_order_witness :
    ((NewFileMode 0o160000).type = FileType.symlink
      ∧ (NewFileMode 0o160000).perms = (0o160000 &&& 0o777))
    ∧ NewFileMode 0o040755 = { type := FileType.directory, perms := 0o444 }
    ∧ NewFileMode 0o100644
        = { type := FileType.regularFile, perms := 0o100644 &&& 0o777 } :=
  ⟨(filemode_decode_order 0o160000).1 (Or.inr (by decide)),
   (filemode_decode_order 0o040755).2.1 (by decide) (by decide),
   (filemode_decode_order 0o100644).2.2 (by decide) (by decide)⟩

/-- C5 counterexample: writing through an open handle fails with
`billy.ErrNotSupported`, not with the claimed `billy.ErrReadOnly`. -/
theorem file_write_not_readonly_counterexample :
    GitFile.write demoFile [1] = (0, some FsError.notSupported)
    ∧ some FsError.notSupported ≠ some FsError.readOnly := by
  decide

/-- C5 amended: every filesystem-level mutating operation unconditionally
fails with the read-only error for every path and performs no I/O, while
the handle-level operations (write, truncate, lock, unlock) unconditionally
fail with the not-supported error. -/
theorem mutating_operations_reject :
    ∀ (s : ReferenceFileSystem) (f : GitFile) (a b : String) (m : Nat)
      (u g t1 t2 n : Int) (bytes : List Nat),
      Create s a = Except.error FsError.readOnly
      ∧ Rename s a b = Except.error FsError.readOnly
      ∧ Remove s a = Except.error FsError.readOnly
      ∧ TempFile s a b = Except.error FsError.readOnly
      ∧ MkdirAll s a m = Except.error FsError.readOnly
      ∧ Symlink s a b = Except.error FsError.readOnly
      ∧ Chmod s a m = Except.error FsError.readOnly
      ∧ Lchown s a u g = Except.error FsError.readOnly
      ∧ Chown s a u g = Except.error FsError.readOnly
      ∧ Chtimes s a t1 t2 = Except.error FsError.readOnly
      ∧ GitFile.write f bytes = (0, some FsError.notSupported)
      ∧ GitFile.truncate f n = some FsError.notSupported
      ∧ GitFile.lock f = some FsError.notSupported
      ∧ GitFile.unlock f = some FsError.notSupported := by
  intro s f a b m u g t1 t2 n bytes
  exact ⟨rfl, rfl, rfl, rfl, rfl, rfl, rfl, rfl, rfl, rfl, rfl, rfl, rfl, rfl⟩

/-- C6: on a line that is missing the second space-separated field the
parser hits a negative slice bound (a runtime panic) before its own
"type not found" error return, instead of failing the listing call with an
error. -/
theorem parser_panics_on_missing_type_field :
    newListTreeEntry "100644 blob" = LineParse.panicked := by
  rfl

/-- C7: `Chroot` builds the new view from the resolved root and the shared
backend handle only, so the new view's selected reference is the zero
value rather than the original view's reference. -/
theorem chroot_drops_reference :
    ∃ r, Chroot masterFs "test" = Except.ok r
      ∧ r.root = ["test"]
      ∧ r.git = masterFs.git
      ∧ r.reference = zeroGitReference
      ∧ r.reference ≠ masterFs.reference := by
  refine ⟨{ git := masterFs.git, reference := zeroGitReference, root := ["test"] },
    rfl, rfl, rfl, rfl, by decide⟩

/-- C9 counterexample: a raw mode with the symlink pattern and nonzero low
bits decodes as a symlink whose permission bits are not zero. -/
theorem symlink_perms_nonzero_counterexample :
    (NewFileMode 0o120777).type = FileType.symlink
    ∧ (NewFileMode 0o120777).perms ≠ 0 := by
  decide

/-- C9 amended: a raw mode that decodes as a symlink keeps its stored low-9
permission bits verbatim (zero exactly when the stored bits are zero, as in
git's canonical symlink mode `0o120000`). -/
theorem symlink_perms_verbatim (m : Nat)
    (h : (NewFileMode m).type = FileType.symlink) :
    (NewFileMode m).perms = m &&& 0o777 := by
  by_cases h1 : (m &&& 0o120000 = 0o120000 ∨ m &&& 0o160000 = 0o160000)
  · simp only [NewFileMode, if_pos h1]
  · by_cases h2 : m &&& 0o040000 = 0o040000
    · simp only [NewFileMode, if_neg h1, if_pos h2] at h
      exact absurd h (by decide)
    · simp only [NewFileMode, if_neg h1, if_neg h2] at h
      exact absurd h (by decide)

/-- Witness for C9 at a concrete mode. -/
theorem symlink_perms_verbatim_witness :
    (NewFileMode 0o120100).perms = 0o120100 &&& 0o777 :=
  symlink_perms_verbatim 0o120100 (by decide)

/-- C3 counterexample: in a chroot view whose root contains a symlink whose
stored target is `../real.txt`, `Readlink` returns the resolved,
root-relative string `real.txt`, not the literal stored target. -/
theorem readlink_not_verbatim_counterexample :
    Readlink chrootFs "escaping.txt" = Except.ok "real.txt"
    ∧ Except.ok "real.txt" ≠ (Except.ok "../real.txt" : Except FsError String) := by
  exact ⟨rfl, by simp⟩

/-- C3 amended: `Readlink` does not return the stored blob content verbatim;
it resolves the content against the parent of the resolved link path and
returns the rendering of that resolution (so an escaping target either
re-enters the repository root space or fails with the escape error). -/
theorem readlink_resolves_target (s : ReferenceFileSystem) (link : String)
    (pth : List String) (fi : GitFileInfo) (t : String)
    (h1 : gitPathResolve s.root link = Except.ok pth)
    (h2 : lsFile s.git pth = Except.ok fi)
    (h3 : s.git.readBlob fi.hash = Except.ok t) :
    Readlink s link = (gitPathResolve (gitPathParent pth) t).map pathString := by
  cases hr : gitPathResolve (gitPathParent pth) t with
  | error e => simp [Readlink, h1, h2, h3, hr, Except.map]
  | ok real => simp [Readlink, h1, h2, h3, hr, Except.map]

/-- Witness for C3 at the concrete chroot scenario. -/
theorem readlink_resolves_target_witness :
    Readlink chrootFs "escaping.txt"
      = (gitPathResolve (gitPathParent ["test", "escaping.txt"]) "../real.txt").map
          pathString :=
  readlink_resolves_target chrootFs "escaping.txt" ["test", "escaping.txt"]
    chrootInfo "../real.txt" rfl rfl rfl

/-- C10: for an existing file, `OpenFile` with the read-only flag succeeds
exactly when the caller-supplied permission argument equals the entry's
stored mode, fails with the read-only error for any other permission
argument, and `Open` (which takes no permission argument) is unaffected. -/
theorem openfile_requires_exact_perm (s : ReferenceFileSystem)
    (filename : String) (pth : List String) (fi : GitFileInfo)
    (contents : String) (perm : Nat)
    (h1 : gitPathResolve s.root filename = Except.ok pth)
    (h2 : lsFile s.git pth = Except.ok fi)
    (h3 : s.git.readBlob fi.hash = Except.ok contents) :
    (perm = fi.mode →
      OpenFile s filename O_RDONLY perm
        = Except.ok { name := filename, info := fi, contents := contents })
    ∧ (perm ≠ fi.mode →
        OpenFile s filename O_RDONLY perm = Except.error FsError.readOnly)
    ∧ Open s filename
        = Except.ok { name := filename, info := fi, contents := contents } := by
  refine ⟨?_, ?_, ?_⟩
  · intro hp
    simp [OpenFile, openFile, h1, h2, h3, hp]
  · intro hp
    simp [OpenFile, h1, h2, hp]
  · simp [Open, openFile, h1, h2, h3]

/-- Witness for C10 at the concrete regular-file backend. -/
theorem openfile_requires_exact_perm_witness :
    OpenFile regularFs "real.txt" O_RDONLY 0o644
      = Except.ok ⟨"real.txt", regularInfo, "Hello World\n"⟩
    ∧ OpenFile regularFs "real.txt" O_RDONLY 0o755 = Except.error FsError.readOnly :=
  ⟨(openfile_requires_exact_perm regularFs "real.txt" ["real.txt"] regularInfo
      "Hello World\n" 0o644 rfl rfl rfl).1 rfl,
   (openfile_requires_exact_perm regularFs "real.txt" ["real.txt"] regularInfo
      "Hello World\n" 0o755 rfl rfl rfl).2.1 (by decide)⟩

/-- The buffer loop writes an initial segment of its input list. -/
theorem writeDirents_isPrefix (sz : Dirent → Nat) (l : List Dirent) :
    ∀ space, ∃ k, writeDirents sz l space = l.take k := by
  induction l with
  | nil => exact fun _ => ⟨0, rfl⟩
  | cons e rest ih =>
    intro space
    by_cases h : sz e ≤ space
    · by_cases h0 : sz e = 0
      · exact ⟨0, by simp [writeDirents, h, h0]⟩
      · obtain ⟨k, hk⟩ := ih (space - sz e)
        exact ⟨k + 1, by simp [writeDirents, h, h0, hk]⟩
    · exact ⟨0, by simp [writeDirents, h]⟩

/-- With positive entry sizes, a buffer of the total size takes everything. -/
theorem writeDirents_all (sz : Dirent → Nat) (hsz : ∀ e, 0 < sz e) :
    ∀ (l : List Dirent) (space), direntsSize sz l ≤ space →
      writeDirents sz l space = l := by
  intro l
  induction l with
  | nil => exact fun _ _ => rfl
  | cons e rest ih =>
    intro space hle
    unfold direntsSize at hle
    have h : sz e ≤ space := by omega
    have h0 : sz e ≠ 0 := Nat.pos_iff_ne_zero.mp (hsz e)
    have h2 : direntsSize sz rest ≤ space - sz e := by omega
    simp [writeDirents, h, h0, ih (space - sz e) h2]

/-- A chain of resumable `ReadDir` calls returns an initial segment of the
entry list from its starting offset. -/
theorem fusePaginate_take (tbl : InodeTable) (sz : Dirent → Nat) (id : Nat)
    (ino : BillyInode) (entries : List Dirent)
    (h1 : getInode tbl id = Except.ok ino)
    (h2 : ino.mode &&& fsModeDir ≠ 0)
    (h3 : buildDirents tbl ino.children 0 = Except.ok entries) :
    ∀ (budgets : List Nat) (o : Nat) (p : List Dirent),
      fusePaginate tbl sz id budgets o = Except.ok p →
      ∃ k, p = (entries.drop o).take k := by
  have hrd : ∀ o b, fuseReadDir tbl sz id o b =
      if entries.length < o then Except.error FuseError.ioError
      else Except.ok (writeDirents sz (entries.drop o) b) := by
    intro o b
    simp [fuseReadDir, h1, h2, h3]
  intro budgets
  induction budgets with
  | nil =>
    intro o p hp
    unfold fusePaginate at hp
    exact ⟨0, by simpa using hp.symm⟩
  | cons b bs ih =>
    intro o p hp
    unfold fusePaginate at hp
    rw [hrd o b] at hp
    by_cases ho : entries.length < o
    · rw [if_pos ho] at hp
      exact absurd hp (by simp)
    · rw [if_neg ho] at hp
      dsimp only at hp
      cases hrec : fusePaginate tbl sz id bs
          (o + (writeDirents sz (entries.drop o) b).length) with
      | error e =>
        rw [hrec] at hp
        exact absurd hp (by simp)
      | ok rest =>
        rw [hrec] at hp
        obtain ⟨k1, hk1⟩ := writeDirents_isPrefix sz (entries.drop o) b
        obtain ⟨k2, hk2⟩ := ih _ rest hrec
        have hp2 : writeDirents sz (entries.drop o) b ++ rest = p := by
          simpa using hp
        set r := writeDirents sz (entries.drop o) b with hr
        have hrlen : r = (entries.drop o).take r.length := by
          rw [hk1, List.length_take, List.take_eq_take]
          omega
        have hdrop : entries.drop (o + r.length) = (entries.drop o).drop r.length :=
          (List.drop_drop _ _ _).symm
        rw [hdrop] at hk2
        refine ⟨r.length + k2, ?_⟩
        rw [← hp2, hk2, List.take_add, ← hrlen]

/-- C8: for a directory inode whose children all resolve, any chain of
resumable `ReadDir` calls (each resuming at the offset where the previous
one stopped) that returns as many entries as the directory has reproduces,
concatenated, exactly the sequence a single call with an unlimited buffer
returns from offset zero. -/
theorem readdir_pagination_complete (tbl : InodeTable) (sz : Dirent → Nat)
    (id : Nat) (ino : BillyInode) (entries paged : List Dirent)
    (budgets : List Nat)
    (h1 : getInode tbl id = Except.ok ino)
    (h2 : ino.mode &&& fsModeDir ≠ 0)
    (h3 : buildDirents tbl ino.children 0 = Except.ok entries)
    (hsz : ∀ e, 0 < sz e)
    (hp : fusePaginate tbl sz id budgets 0 = Except.ok paged)
    (hcomplete : paged.length = entries.length) :
    paged = entries
    ∧ fuseReadDir tbl sz id 0 (direntsSize sz entries) = Except.ok entries := by
  obtain ⟨k, hk⟩ := fusePaginate_take tbl sz id ino entries h1 h2 h3 budgets 0
    paged hp
  rw [List.drop_zero] at hk
  have h4 : entries.length ≤ k := by
    have hlen := congrArg List.length hk
    rw [List.length_take] at hlen
    omega
  constructor
  · rw [hk, List.take_of_length_le h4]
  · have hnl : ¬ entries.length < 0 := by omega
    simp [fuseReadDir, h1, h2, h3, hnl,
      writeDirents_all sz hsz entries (direntsSize sz entries) (Nat.le_refl _)]

/-- Witness for C8 on the concrete inode table: three calls with a
three-entry directory and per-call budgets of one entry each reproduce the
unlimited listing. -/
theorem readdir_pagination_complete_witness :
    fusePaginate demoTable (fun _ => 10) 1 [10, 10, 10] 0 = Except.ok demoEntries
    ∧ fuseReadDir demoTable (fun _ => 10) 1 0
        (direntsSize (fun _ => 10) demoEntries) = Except.ok demoEntries :=
  ⟨rfl,
   (readdir_pagination_complete demoTable (fun _ => 10) 1 demoInode1 demoEntries
      demoEntries [10, 10, 10] rfl (by decide) rfl (fun _ => Nat.zero_lt_succ 9) rfl
      rfl).2⟩

end GitFs
